import Mathlib

/-!
Verification of the MDBFS backend translation layer: a shallow embedding of
the path decoder, the per-backend FUSE operation implementations and the
database-manager state machines, with theorems checking the specification's
claims against them.
-/

namespace Mdbfs

/-!
### Path utilities

`src/utils/path.cxx` wraps the C++ standard library:
`mdbfs_path_lexically_normal` calls `std::filesystem::path::lexically_normal`
on the input and `mdbfs_path_is_absolute` checks `is_absolute()` of the
normalized path.  The functions below model that external library function
for POSIX (generic-format, no root-name) paths, following the normal-form
algorithm of the C++ standard: collapse repeated separators, remove `.`
components, cancel `name/..` pairs, remove `..` components directly after
the root, drop a trailing separator after a final `..`, and render the empty
result as `.`.  Note that `lexically_normal` preserves a trailing separator
after an ordinary filename (`"/t/"` is already in normal form).
-/

/-- Split a character list at `/` separators, keeping empty groups: the
element sequence of the path (`"/t/"` yields `[[], ['t'], []]`). -/
def splitSlashes : List Char → List (List Char)
  | [] => [[]]
  | c :: rest =>
    if c = '/' then [] :: splitSlashes rest
    else
      match splitSlashes rest with
      | [] => [[c]]
      | g :: gs => (c :: g) :: gs

/-- One step of `..` cancellation (normal-form rule: a non-`..` filename
immediately followed by `..` is removed); `acc` is the reversed prefix. -/
def dotdotStep (acc : List (List Char)) (comp : List Char) : List (List Char) :=
  if comp = ['.', '.'] then
    match acc with
    | [] => [comp]
    | x :: rest => if x = ['.', '.'] then comp :: acc else rest
  else comp :: acc

/-- Join components with single `/` separators. -/
def joinSlash : List (List Char) → List Char
  | [] => []
  | [g] => g
  | g :: g2 :: gs => g ++ '/' :: joinSlash (g2 :: gs)

/-- The normal form of a POSIX path, on character lists. -/
def lexNormChars (p : List Char) : List Char :=
  if p = [] then []
  else
    let hasRoot : Bool := p.head? == some '/'
    let raw := splitSlashes p
    let comps := raw.filter (fun g => !g.isEmpty)
    let trailing0 : Bool := (raw.getLast? == some []) && !comps.isEmpty
    let comps1 := comps.filter (fun g => g != ['.'])
    let trailing1 : Bool :=
      if comps1.isEmpty then trailing0
      else trailing0 || (comps.getLast? == some ['.'])
    let comps2 := (comps1.foldl dotdotStep []).reverse
    let trailing2 : Bool :=
      if comps2.isEmpty then trailing1
      else trailing1 ||
        ((comps1.getLast? == some ['.', '.']) && !(comps2.getLast? == some ['.', '.']))
    let comps3 := if hasRoot then comps2.dropWhile (fun g => g == ['.', '.']) else comps2
    let trailing3 : Bool :=
      if comps3.getLast? == some ['.', '.'] then false else trailing2
    if hasRoot then
      '/' :: (joinSlash comps3 ++ (if !comps3.isEmpty && trailing3 then ['/'] else []))
    else if comps3.isEmpty then ['.']
    else joinSlash comps3 ++ (if trailing3 then ['/'] else [])

/-- Model of `mdbfs_path_lexically_normal` (src/utils/path.cxx), a C wrapper
of `std::filesystem::path::lexically_normal`. -/
def mdbfs_path_lexically_normal (p : String) : String :=
  String.mk (lexNormChars p.data)

/-- Model of `mdbfs_path_is_absolute` (src/utils/path.cxx): normalize, then
`is_absolute()`; on POSIX a path is absolute iff it has a root directory,
i.e. the normalized form starts with the separator. -/
def mdbfs_path_is_absolute (p : String) : Bool :=
  (lexNormChars p.data).head? == some '/'

/-!
### Tabular (SQLite) path decoding — `mdbfs_sqlite_path_from_string`
(src/src/backends/sqlite/sqlite-fuse.c, lines 61-163)
-/

/-- `enum mdbfs_sqlite_path_type`. -/
inductive SqlitePathType where
  | database
  | table
  | row
  | column
deriving DecidableEq

/-- `struct mdbfs_sqlite_path`; absent (NULL) components are `none`. -/
structure SqlitePath where
  type : SqlitePathType
  table : Option String
  row : Option String
  column : Option String
deriving DecidableEq

/-- The `while (*p_end && *p_end != '/') ++p_end;` walk of the source:
the segment up to the next separator or the end, and the remainder
(still beginning with the separator, if one stopped the walk). -/
def segSplit : List Char → List Char × List Char
  | [] => ([], [])
  | c :: rest =>
    if c = '/' then ([], c :: rest)
    else
      let s := segSplit rest
      (c :: s.1, s.2)

/-- Model of `mdbfs_sqlite_path_from_string`: normalize, require an absolute
path, special-case the root, then fill table/row/column from up to three
segments; anything after the third segment's terminator is illegal. -/
def mdbfs_sqlite_path_from_string (path : String) : Option SqlitePath :=
  let normalized := mdbfs_path_lexically_normal path
  if !mdbfs_path_is_absolute normalized then none
  else if normalized = "/" then some ⟨.database, none, none, none⟩
  else
    let s1 := segSplit (normalized.data.drop 1)
    match s1.2 with
    | [] => some ⟨.table, some (String.mk s1.1), none, none⟩
    | _ :: rest1 =>
      let s2 := segSplit rest1
      match s2.2 with
      | [] => some ⟨.row, some (String.mk s1.1), some (String.mk s2.1), none⟩
      | _ :: rest2 =>
        let s3 := segSplit rest2
        match s3.2 with
        | [] =>
          some ⟨.column, some (String.mk s1.1), some (String.mk s2.1),
                some (String.mk s3.1)⟩
        | _ => none

/-!
### Key-value (Berkeley DB) path decoding — `key_from_path`
(fuseops.c of the Berkeley DB backend, src/unnamed/part_005 lines 177-225)
-/

/-- Model of `key_from_path`: normalize, require an absolute path; the root
maps to the empty key; otherwise exactly one segment is the key and any
remaining text makes the path illegal. -/
def key_from_path (path : String) : Option String :=
  let normalized := mdbfs_path_lexically_normal path
  if !mdbfs_path_is_absolute normalized then none
  else if normalized = "/" then some ""
  else
    let s := segSplit (normalized.data.drop 1)
    match s.2 with
    | [] => some (String.mk s.1)
    | _ => none

/-!
### Errno and file-mode constants
-/

def ENOENT : Int := 2
def EINTR : Int := 4
def EACCES : Int := 13
def EISDIR : Int := 21
def EINVAL : Int := 22
def ENOSPC : Int := 28
def EROFS : Int := 30

/-- The two fields of `struct stat` the backends fill. -/
structure Stat where
  st_mode : Nat
  st_size : Nat
deriving DecidableEq

/-- `S_IFREG | S_IRUSR | S_IWUSR | S_IRGRP | S_IROTH` — regular file 0644. -/
def regFileMode : Nat := 0o100000 ||| 0o400 ||| 0o200 ||| 0o40 ||| 0o4

/-- `S_IFDIR | S_IRUSR | S_IWUSR | S_IXUSR | S_IRGRP | S_IXGRP | S_IROTH |
S_IXOTH` — directory 0755. -/
def dirMode : Nat :=
  0o40000 ||| 0o400 ||| 0o200 ||| 0o100 ||| 0o40 ||| 0o10 ||| 0o4 ||| 0o1

/-!
### SQLite database manager — query side
(src/src/backends/sqlite/dbmgr.c)

The SQLite engine itself is an external collaborator; the manager's query
functions are modelled by an oracle `SqliteDB` giving, for each query the
manager can issue, the result the engine-driven code would produce (`none`
models the manager's NULL return: missing input, engine error, or the
missing-column marker of `get_cell`).  The repository's own argument
checks (`if (!table_name) ... return NULL`) are embedded on top of it.
-/

/-- Oracle for the manager's query results.  `cols` takes the raw row
argument (which `mdbfs_backend_sqlite_get_column_names` does not
null-check), `cell` the three checked components. -/
structure SqliteDB where
  tables : Option (List String)
  rows : String → Option (List String)
  cols : String → Option String → Option (List String)
  cell : String → String → String → Option (List Nat)

/-- `mdbfs_backend_sqlite_get_table_names`. -/
def mdbfs_backend_sqlite_get_table_names (db : SqliteDB) : Option (List String) :=
  db.tables

/-- `mdbfs_backend_sqlite_get_row_names`: NULL table name is rejected. -/
def mdbfs_backend_sqlite_get_row_names (db : SqliteDB) :
    Option String → Option (List String)
  | none => none
  | some t => db.rows t

/-- `mdbfs_backend_sqlite_get_column_names`: only the table name is
null-checked by the source. -/
def mdbfs_backend_sqlite_get_column_names (db : SqliteDB) :
    Option String → Option String → Option (List String)
  | none, _ => none
  | some t, r => db.cols t r

/-- `mdbfs_backend_sqlite_get_cell`: all three components are null-checked;
on success the out-parameter length is the byte length of the value. -/
def mdbfs_backend_sqlite_get_cell (db : SqliteDB) :
    Option String → Option String → Option String → Option (List Nat)
  | some t, some r, some c => db.cell t r c
  | _, _, _ => none

/-!
### SQLite database manager — mutation side

Mutating manager calls prepare a SQL string and step it on the engine.
The engine is modelled by `SqliteEngine`: whether `sqlite3_prepare_v2`
succeeds for a given SQL text, and what `sqlite3_step` does to the
abstract database state `σ` (its outcome `done`/`stepError` models
`SQLITE_DONE` versus any other terminating code).
-/

/-- Outcome of `sqlite3_step` on a mutating statement. -/
inductive StepOutcome where
  | done
  | stepError
deriving DecidableEq

/-- The engine as seen by the mutating manager calls. -/
structure SqliteEngine (σ : Type) where
  prep : String → Bool
  step : String → σ → σ × StepOutcome

/-- Double-quote an identifier the way the manager's SQL format strings do. -/
def quoteId (s : String) : String := "\"" ++ s ++ "\""

/-- `sql_fmt_update_set_where` applied as in `set_cell`:
`UPDATE "<table>" SET "<col>" = "<content>" WHERE "ROWID" = "<row>"`. -/
def sql_fmt_update_set_where (table col content row : String) : String :=
  "UPDATE " ++ quoteId table ++ " SET " ++ quoteId col ++ " = " ++
    quoteId content ++ " WHERE " ++ quoteId "ROWID" ++ " = " ++ quoteId row

/-- `sql_fmt_alter_table_rename_to`. -/
def sql_fmt_alter_table_rename_to (a b : String) : String :=
  "ALTER TABLE " ++ quoteId a ++ " RENAME TO " ++ quoteId b

/-- `sql_fmt_alter_table_rename_column_to`. -/
def sql_fmt_alter_table_rename_column_to (t a b : String) : String :=
  "ALTER TABLE " ++ quoteId t ++ " RENAME COLUMN " ++ quoteId a ++
    " TO " ++ quoteId b

/-- The SQL text `rename_row` builds (the source passes three arguments to
the five-slot `sql_fmt_update_set_where` format; the model keeps the three
formatted slots that are actually supplied). -/
def sql_rename_row (t a b : String) : String :=
  "UPDATE " ++ quoteId t ++ " SET " ++ quoteId a ++ " = " ++ quoteId b

/-- Model of `mdbfs_backend_sqlite_set_cell` (dbmgr.c lines 502-544).
After the missing-argument check every path ends at the `quit` label and
`return 1`: prepare failure and step failure also report success. -/
def mdbfs_backend_sqlite_set_cell {σ : Type} (e : SqliteEngine σ) (s : σ)
    (content : String) (table row col : Option String) : σ × Bool :=
  match table, row, col with
  | some t, some r, some c =>
    let sql := sql_fmt_update_set_where t c content r
    if e.prep sql then ((e.step sql s).1, true)
    else (s, true)
  | _, _, _ => (s, false)

/-- Model of `mdbfs_backend_sqlite_rename_table` (same always-1 shape after
the argument check). -/
def mdbfs_backend_sqlite_rename_table {σ : Type} (e : SqliteEngine σ) (s : σ)
    (a b : Option String) : σ × Bool :=
  match a, b with
  | some x, some y =>
    let sql := sql_fmt_alter_table_rename_to x y
    if e.prep sql then ((e.step sql s).1, true)
    else (s, true)
  | _, _ => (s, false)

/-- Model of `mdbfs_backend_sqlite_rename_row`. -/
def mdbfs_backend_sqlite_rename_row {σ : Type} (e : SqliteEngine σ) (s : σ)
    (t a b : Option String) : σ × Bool :=
  match t, a, b with
  | some x, some y, some z =>
    let sql := sql_rename_row x y z
    if e.prep sql then ((e.step sql s).1, true)
    else (s, true)
  | _, _, _ => (s, false)

/-- Model of `mdbfs_backend_sqlite_rename_column`. -/
def mdbfs_backend_sqlite_rename_column {σ : Type} (e : SqliteEngine σ) (s : σ)
    (t a b : Option String) : σ × Bool :=
  match t, a, b with
  | some x, some y, some z =>
    let sql := sql_fmt_alter_table_rename_column_to x y z
    if e.prep sql then ((e.step sql s).1, true)
    else (s, true)
  | _, _, _ => (s, false)

/-!
### SQLite FUSE operations (src/src/backends/sqlite/sqlite-fuse.c)
-/

/-- Model of `_getattr` (sqlite-fuse.c lines 544-644).  `st0` is the
caller-provided `struct stat`, returned untouched on error paths. -/
def sqlite_getattr (db : SqliteDB) (path : String) (st0 : Stat) : Int × Stat :=
  match mdbfs_sqlite_path_from_string path with
  | none => (-ENOENT, st0)
  | some sp =>
    match sp.type with
    | .database =>
      match mdbfs_backend_sqlite_get_table_names db with
      | none => (-ENOENT, st0)
      | some _ => (0, { st0 with st_mode := dirMode, st_size := 0 })
    | .table =>
      match mdbfs_backend_sqlite_get_row_names db sp.table with
      | none => (-ENOENT, st0)
      | some _ => (0, { st0 with st_mode := dirMode, st_size := 0 })
    | .row =>
      match mdbfs_backend_sqlite_get_column_names db sp.table sp.row with
      | none => (-ENOENT, st0)
      | some _ => (0, { st0 with st_mode := dirMode, st_size := 0 })
    | .column =>
      match mdbfs_backend_sqlite_get_cell db sp.table sp.row sp.column with
      | none => (-ENOENT, st0)
      | some bytes =>
        (0, { st0 with st_mode := regFileMode, st_size := bytes.length })

/-- The per-entry loop of `_readdir` for the table and row branches: each
iteration zero-initializes a `struct stat`, calls `_getattr` ON THE READDIR
PATH ARGUMENT, aborts on its failure, and otherwise passes the entry name
and those attributes to the filler.  Returns the final code and the list of
`(name, attributes)` pairs handed to the filler. -/
def sqlite_fill_checked (db : SqliteDB) (path : String) :
    List String → Int × List (String × Stat)
  | [] => (0, [])
  | n :: rest =>
    let ra := sqlite_getattr db path ⟨0, 0⟩
    if ra.1 < 0 then (ra.1, [])
    else
      let k := sqlite_fill_checked db path rest
      (k.1, (n, ra.2) :: k.2)

/-- The per-entry loop of `_readdir`'s database branch, which ignores the
`_getattr` return value. -/
def sqlite_fill_unchecked (db : SqliteDB) (path : String) :
    List String → List (String × Stat)
  | [] => []
  | n :: rest =>
    (n, (sqlite_getattr db path ⟨0, 0⟩).2) :: sqlite_fill_unchecked db path rest

/-- Model of `_readdir` (sqlite-fuse.c lines 657-766): returns the code and
the `(name, attributes)` pairs passed to the FUSE filler. -/
def sqlite_readdir (db : SqliteDB) (path : String) (offset : Nat) :
    Int × List (String × Stat) :=
  if offset > 0 then (0, [])
  else
    match mdbfs_sqlite_path_from_string path with
    | none => (-EINTR, [])
    | some sp =>
      match sp.type with
      | .column => (-ENOENT, [])
      | .database =>
        match mdbfs_backend_sqlite_get_table_names db with
        | none => (-ENOENT, [])
        | some names => (0, sqlite_fill_unchecked db path names)
      | .table =>
        match mdbfs_backend_sqlite_get_row_names db sp.table with
        | none => (-ENOENT, [])
        | some names => sqlite_fill_checked db path names
      | .row =>
        match mdbfs_backend_sqlite_get_column_names db sp.table sp.row with
        | none => (-ENOENT, [])
        | some names => sqlite_fill_checked db path names

/-- Model of `_read` (sqlite-fuse.c lines 436-485).  The returned pair is
the C return value and the bytes placed in `buf`.  Note the source copies
`copy_size = min(cell_size, bufsize)` bytes starting at `cell + offset`:
the count ignores the offset, and the copy can run past the end of the
cell allocation (`cell` holds the value bytes plus a NUL terminator); the
model returns the defined portion of that copy. -/
def sqlite_read (db : SqliteDB) (path : String) (bufsize : Nat) (offset : Nat) :
    Int × List Nat :=
  match mdbfs_sqlite_path_from_string path with
  | none => (-EINTR, [])
  | some sp =>
    if sp.type ≠ .column then (-EISDIR, [])
    else
      match mdbfs_backend_sqlite_get_cell db sp.table sp.row sp.column with
      | none => (-ENOENT, [])
      | some cell =>
        if offset ≥ cell.length then (0, [])
        else
          let copySize := if cell.length ≤ bufsize then cell.length else bufsize
          ((copySize : Int), ((cell ++ [0]).drop offset).take copySize)

/-- Model of `_write` (sqlite-fuse.c lines 496-528): a positive offset
returns 0 before anything else; then the path is decoded (without any check
of its type) and the components are handed to `set_cell`. -/
def sqlite_write {σ : Type} (e : SqliteEngine σ) (s : σ) (path : String)
    (buf : String) (bufsize : Nat) (offset : Nat) : Int × σ :=
  if offset > 0 then (0, s)
  else
    match mdbfs_sqlite_path_from_string path with
    | none => (-EINTR, s)
    | some sp =>
      let r := mdbfs_backend_sqlite_set_cell e s buf sp.table sp.row sp.column
      if r.2 then ((bufsize : Int), r.1)
      else (-EINTR, r.1)

/-- A manager call dispatched by `_rename`, with the component pointers it
passes (the manager functions null-check them themselves). -/
inductive MgrCall where
  | renameTable (a b : Option String)
  | renameRow (t a b : Option String)
  | renameColumn (t a b : Option String)
deriving DecidableEq

/-- Model of `_rename` (sqlite-fuse.c lines 242-320): result code, final
abstract database state, and the manager calls issued. -/
def sqlite_rename {σ : Type} (e : SqliteEngine σ) (s : σ)
    (path1 path2 : String) : Int × σ × List MgrCall :=
  match mdbfs_sqlite_path_from_string path1 with
  | none => (-EINTR, s, [])
  | some o =>
    match mdbfs_sqlite_path_from_string path2 with
    | none => (-EINTR, s, [])
    | some n =>
      if o.type ≠ n.type then (-ENOSPC, s, [])
      else if o.type = .database then (-EROFS, s, [])
      else if o.type = .table then
        let r := mdbfs_backend_sqlite_rename_table e s o.table n.table
        ((if r.2 then 0 else -ENOSPC), r.1, [.renameTable o.table n.table])
      else if o.type = .row then
        let r := mdbfs_backend_sqlite_rename_row e s o.table o.row n.row
        ((if r.2 then 0 else -ENOSPC), r.1, [.renameRow o.table o.row n.row])
      else if o.type = .column then
        let r := mdbfs_backend_sqlite_rename_column e s o.table o.column n.column
        ((if r.2 then 0 else -ENOSPC), r.1,
          [.renameColumn o.table o.column n.column])
      else (-EINTR, s, [])

/-!
### Berkeley DB manager and FUSE operations
(src/src/backends/berkeleydb/dbmgr.c and fuseops.c in src/unnamed/part_005)

The Berkeley DB engine is modelled as a map from keys to byte values:
`get` looks the key up, `put` with flags 0 is an unconditional upsert.
-/

/-- Abstract record store of the Berkeley DB engine. -/
def BdbStore := String → Option (List Nat)

/-- The engine's `DB->put` with flags 0: unconditional upsert. -/
def bdb_put (store : BdbStore) (k : String) (v : List Nat) : BdbStore :=
  fun s => if s = k then some v else store s

/-- `mdbfs_backend_berkeleydb_get_record_value`: the engine's `DB->get`. -/
def mdbfs_backend_berkeleydb_get_record_value (store : BdbStore) (k : String) :
    Option (List Nat) :=
  store k

/-- `mdbfs_backend_berkeleydb_create_record` (dbmgr.c lines 281-305): an
unconditional `put` of the empty value under the key. -/
def mdbfs_backend_berkeleydb_create_record (store : BdbStore) (k : String) :
    BdbStore × Bool :=
  (bdb_put store k [], true)

/-- Model of the Berkeley DB backend's `_mknod` (part_005 lines 246-271). -/
def bdb_mknod (store : BdbStore) (path : String) : Int × BdbStore :=
  match key_from_path path with
  | none => (-EINVAL, store)
  | some k =>
    let r := mdbfs_backend_berkeleydb_create_record store k
    if r.2 then (0, r.1) else (-EINVAL, r.1)

/-- Model of the Berkeley DB backend's `_read` (part_005 lines 330-373):
same copy logic as the tabular `_read`, but every error is `-EINVAL`. -/
def bdb_read (store : BdbStore) (path : String) (bufsize : Nat) (offset : Nat) :
    Int × List Nat :=
  match key_from_path path with
  | none => (-EINVAL, [])
  | some k =>
    match mdbfs_backend_berkeleydb_get_record_value store k with
    | none => (-EINVAL, [])
    | some content =>
      if offset ≥ content.length then (0, [])
      else
        let copySize :=
          if content.length ≤ bufsize then content.length else bufsize
        ((copySize : Int), (content.drop offset).take copySize)

/-- Model of the Berkeley DB backend's `_getattr` (part_005 lines 408-458). -/
def bdb_getattr (store : BdbStore) (path : String) (st0 : Stat) : Int × Stat :=
  match key_from_path path with
  | none => (-ENOENT, st0)
  | some k =>
    if k = "" then (0, { st0 with st_mode := dirMode, st_size := 0 })
    else
      match mdbfs_backend_berkeleydb_get_record_value store k with
      | none => (-ENOENT, st0)
      | some content =>
        (0, { st0 with st_mode := regFileMode, st_size := content.length })

/-!
### Database handle state machines

Each backend keeps one module-local handle (`g_db`); the state is `Open`
iff the handle is non-NULL, modelled as `Option H`.  The external engine's
open primitive is a parameter: for SQLite a function from the artifact path
to the handle it yields on success (`none` models failure), for Berkeley DB
the result of `db_create` and the success of `DB->open`.  Each transition
returns (new handle state, success, whether the already-open warning was
emitted).
-/

/-- Model of `mdbfs_backend_sqlite_open_database_from_file` (dbmgr.c lines
96-121): a missing path fails without touching the state; an already-open
handle is dropped (`g_db = NULL`) with a warning; then
`sqlite3_open_v2(path, &g_db, ...)` runs.  The engine call is modelled as a
pair: the connection handle it writes to the out-parameter `&g_db`, and
whether it returned `SQLITE_OK`.  Per the engine contract a handle is
written even on most failures (the failure branch itself reads
`sqlite3_errmsg(g_db)` from it; only out-of-memory leaves it NULL), and
the source returns 0 on failure WITHOUT resetting `g_db`, so the final
state is the written handle in both outcomes. -/
def sqliteOpenDatabase {H : Type} (g : Option H) (path : Option String)
    (engineOpen : String → Option H × Bool) : Option H × Bool × Bool :=
  match path with
  | none => (g, false, false)
  | some p =>
    let warned := g.isSome
    let res := engineOpen p
    (res.1, res.2, warned)

/-- Model of `mdbfs_backend_sqlite_close_database` (dbmgr.c lines 123-133):
(new state, whether the closing-a-closed-connection warning fired). -/
def sqliteCloseDatabase {H : Type} (g : Option H) : Option H × Bool :=
  match g with
  | none => (none, true)
  | some _ => (none, false)

/-- Model of `mdbfs_backend_berkeleydb_open_database_from_file` (berkeleydb
dbmgr.c lines 23-54): a missing path fails without touching the state; an
open handle is closed first with a warning; `db_create` failure or `DB->open`
failure leaves the handle closed. -/
def bdbOpenDatabase {H : Type} (g : Option H) (path : Option String)
    (createRes : Option H) (openOk : Bool) : Option H × Bool × Bool :=
  match path with
  | none => (g, false, false)
  | some _ =>
    let warned := g.isSome
    match createRes with
    | none => (none, false, warned)
    | some h => if openOk then (some h, true, warned) else (none, false, warned)

/-- Model of `mdbfs_backend_berkeleydb_close_database` (berkeleydb dbmgr.c
lines 56-72). -/
def bdbCloseDatabase {H : Type} (g : Option H) : Option H × Bool :=
  match g with
  | none => (none, true)
  | some _ => (none, false)

/-!
### Helper lemmas on the path model
-/

theorem splitSlashes_sep (xs : List Char) :
    splitSlashes ('/' :: xs) = [] :: splitSlashes xs := by
  simp [splitSlashes]

theorem splitSlashes_append_sep (l ys : List Char) (h : '/' ∉ l) :
    splitSlashes (l ++ '/' :: ys) = l :: splitSlashes ys := by
  induction l with
  | nil => simp [splitSlashes]
  | cons c l ih =>
    simp only [List.mem_cons, not_or] at h
    rw [List.cons_append, splitSlashes]
    rw [if_neg (fun hc => h.1 hc.symm)]
    rw [ih h.2]

theorem splitSlashes_noSep (l : List Char) (h : '/' ∉ l) :
    splitSlashes l = [l] := by
  induction l with
  | nil => simp [splitSlashes]
  | cons c l ih =>
    simp only [List.mem_cons, not_or] at h
    rw [splitSlashes]
    rw [if_neg (fun hc => h.1 hc.symm)]
    rw [ih h.2]

theorem segSplit_append_sep (l ys : List Char) (h : '/' ∉ l) :
    segSplit (l ++ '/' :: ys) = (l, '/' :: ys) := by
  induction l with
  | nil => simp [segSplit]
  | cons c l ih =>
    simp only [List.mem_cons, not_or] at h
    rw [List.cons_append, segSplit]
    rw [if_neg (fun hc => h.1 hc.symm)]
    rw [ih h.2]

theorem segSplit_noSep (l : List Char) (h : '/' ∉ l) :
    segSplit l = (l, []) := by
  induction l with
  | nil => simp [segSplit]
  | cons c l ih =>
    simp only [List.mem_cons, not_or] at h
    rw [segSplit]
    rw [if_neg (fun hc => h.1 hc.symm)]
    rw [ih h.2]

/-- A plain path component: non-empty, not a dot or dot-dot entry, and free
of separators. -/
def PlainComp (l : List Char) : Prop :=
  l ≠ [] ∧ l ≠ ['.'] ∧ l ≠ ['.', '.'] ∧ '/' ∉ l

instance (l : List Char) : Decidable (PlainComp l) := by
  unfold PlainComp
  infer_instance

theorem lexNormChars_root_seg_trailing (l : List Char) (h : PlainComp l) :
    lexNormChars ('/' :: (l ++ ['/'])) = '/' :: (l ++ ['/']) := by
  obtain ⟨h0, h1, h2, h3⟩ := h
  have e0 : l.isEmpty = false := by
    cases l with
    | nil => exact absurd rfl h0
    | cons c t => rfl
  have e1 : (l != ['.']) = true := by
    simp [bne_iff_ne]; exact h1
  have e2 : (l == ['.', '.']) = false := by
    simp [beq_eq_false_iff_ne]; exact h2
  rw [lexNormChars]
  rw [if_neg (by simp)]
  have hsplit : splitSlashes ('/' :: (l ++ ['/'])) = [[], l, []] := by
    rw [splitSlashes_sep]
    have hl : l ++ ['/'] = l ++ '/' :: [] := rfl
    rw [hl, splitSlashes_append_sep l [] h3]
    rfl
  simp only [hsplit]
  simp [List.filter, e0, e1, e2, dotdotStep, h2, joinSlash, List.dropWhile]

theorem lexNormChars_root_seg (l : List Char) (h : PlainComp l) :
    lexNormChars ('/' :: l) = '/' :: l := by
  obtain ⟨h0, h1, h2, h3⟩ := h
  have e0 : l.isEmpty = false := by
    cases l with
    | nil => exact absurd rfl h0
    | cons c t => rfl
  have e1 : (l != ['.']) = true := by
    simp [bne_iff_ne]; exact h1
  have e2 : (l == ['.', '.']) = false := by
    simp [beq_eq_false_iff_ne]; exact h2
  have e4 : (l == []) = false := by
    simp [beq_eq_false_iff_ne]; exact h0
  rw [lexNormChars]
  rw [if_neg (by simp)]
  have hsplit : splitSlashes ('/' :: l) = [[], l] := by
    rw [splitSlashes_sep, splitSlashes_noSep l h3]
  simp only [hsplit]
  simp [List.filter, e0, e1, e2, e4, dotdotStep, h1, h2, joinSlash,
    List.dropWhile]

theorem lexNormChars_root_two_seg_trailing (l1 l2 : List Char)
    (h1 : PlainComp l1) (h2 : PlainComp l2) :
    lexNormChars ('/' :: (l1 ++ '/' :: (l2 ++ ['/']))) =
      '/' :: (l1 ++ '/' :: (l2 ++ ['/'])) := by
  obtain ⟨h10, h11, h12, h13⟩ := h1
  obtain ⟨h20, h21, h22, h23⟩ := h2
  have e10 : l1.isEmpty = false := by
    cases l1 with
    | nil => exact absurd rfl h10
    | cons c t => rfl
  have e20 : l2.isEmpty = false := by
    cases l2 with
    | nil => exact absurd rfl h20
    | cons c t => rfl
  have e11 : (l1 != ['.']) = true := by simp [bne_iff_ne]; exact h11
  have e21 : (l2 != ['.']) = true := by simp [bne_iff_ne]; exact h21
  have e12 : (l1 == ['.', '.']) = false := by
    simp [beq_eq_false_iff_ne]; exact h12
  have e22 : (l2 == ['.', '.']) = false := by
    simp [beq_eq_false_iff_ne]; exact h22
  rw [lexNormChars]
  rw [if_neg (by simp)]
  have hsplit : splitSlashes ('/' :: (l1 ++ '/' :: (l2 ++ ['/']))) =
      [[], l1, l2, []] := by
    rw [splitSlashes_sep, splitSlashes_append_sep l1 _ h13]
    have hl : l2 ++ ['/'] = l2 ++ '/' :: [] := rfl
    rw [hl, splitSlashes_append_sep l2 [] h23]
    rfl
  simp only [hsplit]
  simp [List.filter, e10, e20, e11, e21, e12, e22, dotdotStep, h11, h21, h12,
    h22, joinSlash, List.dropWhile]

theorem decode_seg (t : String) (h : PlainComp t.data) :
    mdbfs_sqlite_path_from_string ("/" ++ t) =
      some ⟨.table, some t, none, none⟩ := by
  obtain ⟨l⟩ := t
  have hpath : ("/" ++ String.mk l) = String.mk ('/' :: l) := by
    show String.mk _ = _
    simp
  rw [hpath]
  have hnorm : mdbfs_path_lexically_normal (String.mk ('/' :: l)) =
      String.mk ('/' :: l) := by
    rw [mdbfs_path_lexically_normal]
    show String.mk (lexNormChars ('/' :: l)) = _
    rw [lexNormChars_root_seg l h]
  have habs : mdbfs_path_is_absolute (String.mk ('/' :: l)) = true := by
    rw [mdbfs_path_is_absolute]
    show ((lexNormChars ('/' :: l)).head? == some '/') = true
    rw [lexNormChars_root_seg l h]
    rfl
  rw [mdbfs_sqlite_path_from_string]
  simp only [hnorm, habs, Bool.not_true, Bool.false_eq_true, if_false]
  have hne : ¬(String.mk ('/' :: l) = "/") := by
    intro he
    have hd := congrArg String.data he
    simp at hd
    exact h.1 hd
  rw [if_neg hne]
  have hdrop : (String.mk ('/' :: l)).data.drop 1 = l := by rfl
  simp only [hdrop, segSplit_noSep l h.2.2.2]

theorem decode_seg_trailing (t : String) (h : PlainComp t.data) :
    mdbfs_sqlite_path_from_string ("/" ++ t ++ "/") =
      some ⟨.row, some t, some "", none⟩ := by
  obtain ⟨l⟩ := t
  have hpath : ("/" ++ String.mk l ++ "/") = String.mk ('/' :: (l ++ ['/'])) := by
    show String.mk _ = _
    simp
  rw [hpath]
  have hnorm : mdbfs_path_lexically_normal (String.mk ('/' :: (l ++ ['/']))) =
      String.mk ('/' :: (l ++ ['/'])) := by
    rw [mdbfs_path_lexically_normal]
    show String.mk (lexNormChars ('/' :: (l ++ ['/']))) = _
    rw [lexNormChars_root_seg_trailing l h]
  have habs : mdbfs_path_is_absolute (String.mk ('/' :: (l ++ ['/']))) = true := by
    rw [mdbfs_path_is_absolute]
    show ((lexNormChars ('/' :: (l ++ ['/']))).head? == some '/') = true
    rw [lexNormChars_root_seg_trailing l h]
    rfl
  rw [mdbfs_sqlite_path_from_string]
  simp only [hnorm, habs, Bool.not_true, Bool.false_eq_true, if_false]
  have hne : ¬(String.mk ('/' :: (l ++ ['/'])) = "/") := by
    intro he
    have hd := congrArg String.data he
    simp at hd
  rw [if_neg hne]
  have hdrop : (String.mk ('/' :: (l ++ ['/']))).data.drop 1 = l ++ '/' :: [] := by
    rfl
  simp only [hdrop, segSplit_append_sep l [] h.2.2.2]
  rfl

theorem decode_two_seg_trailing (t r : String) (ht : PlainComp t.data)
    (hr : PlainComp r.data) :
    mdbfs_sqlite_path_from_string ("/" ++ t ++ "/" ++ r ++ "/") =
      some ⟨.column, some t, some r, some ""⟩ := by
  obtain ⟨l1⟩ := t
  obtain ⟨l2⟩ := r
  have hpath : ("/" ++ String.mk l1 ++ "/" ++ String.mk l2 ++ "/") =
      String.mk ('/' :: (l1 ++ '/' :: (l2 ++ ['/']))) := by
    show String.mk _ = _
    simp
  rw [hpath]
  have hnorm : mdbfs_path_lexically_normal
      (String.mk ('/' :: (l1 ++ '/' :: (l2 ++ ['/'])))) =
      String.mk ('/' :: (l1 ++ '/' :: (l2 ++ ['/']))) := by
    rw [mdbfs_path_lexically_normal]
    show String.mk (lexNormChars ('/' :: (l1 ++ '/' :: (l2 ++ ['/'])))) = _
    rw [lexNormChars_root_two_seg_trailing l1 l2 ht hr]
  have habs : mdbfs_path_is_absolute
      (String.mk ('/' :: (l1 ++ '/' :: (l2 ++ ['/'])))) = true := by
    rw [mdbfs_path_is_absolute]
    show ((lexNormChars ('/' :: (l1 ++ '/' :: (l2 ++ ['/'])))).head? ==
      some '/') = true
    rw [lexNormChars_root_two_seg_trailing l1 l2 ht hr]
    rfl
  rw [mdbfs_sqlite_path_from_string]
  simp only [hnorm, habs, Bool.not_true, Bool.false_eq_true, if_false]
  have hne : ¬(String.mk ('/' :: (l1 ++ '/' :: (l2 ++ ['/']))) = "/") := by
    intro he
    have hd := congrArg String.data he
    simp at hd
  rw [if_neg hne]
  have hdrop : (String.mk ('/' :: (l1 ++ '/' :: (l2 ++ ['/'])))).data.drop 1 =
      l1 ++ '/' :: (l2 ++ '/' :: []) := by rfl
  simp only [hdrop, segSplit_append_sep l1 _ ht.2.2.2]
  simp only [segSplit_append_sep l2 _ hr.2.2.2]
  rfl

/-- Every successful decode yields one of the four component shapes of the
source's tagged structure. -/
theorem decode_shape (path : String) (sp : SqlitePath)
    (h : mdbfs_sqlite_path_from_string path = some sp) :
    sp = ⟨.database, none, none, none⟩ ∨
    (∃ t, sp = ⟨.table, some t, none, none⟩) ∨
    (∃ t r, sp = ⟨.row, some t, some r, none⟩) ∨
    (∃ t r c, sp = ⟨.column, some t, some r, some c⟩) := by
  simp only [mdbfs_sqlite_path_from_string] at h
  split at h
  · exact absurd h (by simp)
  · split at h
    · left
      exact (Option.some.inj h).symm
    · split at h
      · right; left
        exact ⟨_, (Option.some.inj h).symm⟩
      · split at h
        · right; right; left
          exact ⟨_, _, (Option.some.inj h).symm⟩
        · split at h
          · right; right; right
            exact ⟨_, _, _, (Option.some.inj h).symm⟩
          · exact absurd h (by simp)

/-!
### Concrete fixtures used by counterexamples and witnesses
-/

/-- A database whose every cell holds the two bytes 65, 66. -/
def readBugDB : SqliteDB :=
  ⟨some [], fun _ => some [], fun _ _ => some [], fun _ _ _ => some [65, 66]⟩

/-- A record store whose every record holds the two bytes 65, 66. -/
def readBugStore : BdbStore := fun _ => some [65, 66]

/-- An engine whose prepare succeeds and whose step always reports an error
(any terminating code other than SQLITE_DONE). -/
def stepFailEngine : SqliteEngine Unit :=
  ⟨fun _ => true, fun _ s => (s, .stepError)⟩

/-- An engine whose prepare and step always succeed. -/
def unitEngine : SqliteEngine Unit := ⟨fun _ => true, fun _ s => (s, .done)⟩

/-- A record store with no records. -/
def emptyStore : BdbStore := fun _ => none

/-- A database with one table `t`, one row `r`, one column `c` and a
one-byte cell everywhere. -/
def db4 : SqliteDB :=
  ⟨some ["t"], fun _ => some ["r"], fun _ _ => some ["c"], fun _ _ _ => some [65]⟩

/-- A record store holding the single record `k` with value bytes 1, 2. -/
def store10 : BdbStore := fun k => if k = "k" then some [1, 2] else none

/-!
### The claims
-/

/-- Claim C1: the specification says `read(path, buf, n, offset)` returns 0
when `offset >= size` and otherwise returns `min(n, size - offset)` bytes
copied from position `offset` of the value.  The source instead copies
`min(size, n)` bytes starting at position `offset`: at a 2-byte value with
`n = 2, offset = 1`, both the tabular and the key-value `_read` return 2
(not `min(2, 2 - 1) = 1`), and the copied range runs one byte past the end
of the value (the tabular model shows the NUL terminator of the cell
allocation being copied out). -/
theorem claim1_read_offset_count_bug :
    sqlite_read readBugDB "/t/r/c" 2 1 = (2, [66, 0]) ∧
    bdb_read readBugStore "/k" 2 1 = (2, [66]) ∧
    ¬((2 : Int) = ((min 2 (2 - 1) : Nat) : Int)) := by
  decide

/-- Claim C2: the specification says `set_cell` fails on missing arguments
or engine error, and in particular fails when the step of the UPDATE does
not complete successfully.  In the source every path after the
missing-argument check ends in `return 1`: with all three components
present and an engine whose step reports an error, `set_cell` still
returns success; failure is reported only for a missing argument. -/
theorem claim2_set_cell_step_error_bug :
    mdbfs_backend_sqlite_set_cell stepFailEngine () "v"
      (some "t") (some "1") (some "c") = ((), true) ∧
    (mdbfs_backend_sqlite_set_cell stepFailEngine () "v"
      none (some "1") (some "c")).2 = false := by
  decide

/-- Counterexample to claim C3: `lexically_normal` preserves a trailing
separator, so `"/t/"` decodes to tag Row (with an empty row component)
while `"/t"` decodes to tag Table — not the same tag. -/
theorem claim3_trailing_sep_counterexample :
    (mdbfs_sqlite_path_from_string "/t/").map SqlitePath.type = some .row ∧
    (mdbfs_sqlite_path_from_string "/t").map SqlitePath.type = some .table ∧
    (mdbfs_sqlite_path_from_string "/t/").map SqlitePath.type ≠
      (mdbfs_sqlite_path_from_string "/t").map SqlitePath.type := by
  decide

/-- Claim C3 as amended: for plain non-empty components, a path with a
trailing separator after N < 3 components decodes one level deeper than
the same path without it, with an empty final component: `"/t"` is Table,
`"/t/"` is Row with row = `""`, and `"/t/r/"` is Column with column =
`""`. -/
theorem claim3_trailing_sep_amended (t r : String)
    (ht : PlainComp t.data) (hr : PlainComp r.data) :
    mdbfs_sqlite_path_from_string ("/" ++ t) =
      some ⟨.table, some t, none, none⟩ ∧
    mdbfs_sqlite_path_from_string ("/" ++ t ++ "/") =
      some ⟨.row, some t, some "", none⟩ ∧
    mdbfs_sqlite_path_from_string ("/" ++ t ++ "/" ++ r ++ "/") =
      some ⟨.column, some t, some r, some ""⟩ :=
  ⟨decode_seg t ht, decode_seg_trailing t ht, decode_two_seg_trailing t r ht hr⟩

/-- Witness for the amended claim C3 at t = "t", r = "r". -/
theorem claim3_trailing_sep_amended_witness :
    PlainComp ("t" : String).data ∧ PlainComp ("r" : String).data ∧
    (mdbfs_sqlite_path_from_string "/t" = some ⟨.table, some "t", none, none⟩ ∧
     mdbfs_sqlite_path_from_string "/t/" = some ⟨.row, some "t", some "", none⟩ ∧
     mdbfs_sqlite_path_from_string "/t/r/" =
       some ⟨.column, some "t", some "r", some ""⟩) :=
  ⟨by decide, by decide,
   claim3_trailing_sep_amended "t" "r" (by decide) (by decide)⟩

/-- Claim C4: for every path accepted by the tabular decoder, `getattr`
returns 0 with regular-file mode 0644 and the cell byte length as size when
the path is a Column whose cell exists; returns 0 with directory mode 0755
and size 0 when the path is Database, Table or Row and the corresponding
listing is non-null; and returns ENOENT when the cell or listing is null. -/
theorem claim4_getattr_modes (db : SqliteDB) (path : String) (sp : SqlitePath)
    (st0 : Stat) (h : mdbfs_sqlite_path_from_string path = some sp) :
    (sp.type = .column →
      (∀ bytes,
        mdbfs_backend_sqlite_get_cell db sp.table sp.row sp.column = some bytes →
        sqlite_getattr db path st0 = (0, ⟨regFileMode, bytes.length⟩)) ∧
      (mdbfs_backend_sqlite_get_cell db sp.table sp.row sp.column = none →
        sqlite_getattr db path st0 = (-ENOENT, st0))) ∧
    (sp.type = .database →
      (∀ l, mdbfs_backend_sqlite_get_table_names db = some l →
        sqlite_getattr db path st0 = (0, ⟨dirMode, 0⟩)) ∧
      (mdbfs_backend_sqlite_get_table_names db = none →
        sqlite_getattr db path st0 = (-ENOENT, st0))) ∧
    (sp.type = .table →
      (∀ l, mdbfs_backend_sqlite_get_row_names db sp.table = some l →
        sqlite_getattr db path st0 = (0, ⟨dirMode, 0⟩)) ∧
      (mdbfs_backend_sqlite_get_row_names db sp.table = none →
        sqlite_getattr db path st0 = (-ENOENT, st0))) ∧
    (sp.type = .row →
      (∀ l, mdbfs_backend_sqlite_get_column_names db sp.table sp.row = some l →
        sqlite_getattr db path st0 = (0, ⟨dirMode, 0⟩)) ∧
      (mdbfs_backend_sqlite_get_column_names db sp.table sp.row = none →
        sqlite_getattr db path st0 = (-ENOENT, st0))) := by
  refine ⟨fun hc => ⟨fun bytes hb => ?_, fun hb => ?_⟩,
          fun hc => ⟨fun l hb => ?_, fun hb => ?_⟩,
          fun hc => ⟨fun l hb => ?_, fun hb => ?_⟩,
          fun hc => ⟨fun l hb => ?_, fun hb => ?_⟩⟩ <;>
    simp [sqlite_getattr, h, hc, hb]

/-- Witness for claim C4: the existing cell (t, r, c) of `db4` has one
byte, and `getattr` on the decoded column path reports mode 0644 and
size 1. -/
theorem claim4_getattr_modes_witness :
    sqlite_getattr db4 "/t/r/c" ⟨0, 0⟩ = (0, ⟨regFileMode, 1⟩) :=
  ((claim4_getattr_modes db4 "/t/r/c" ⟨.column, some "t", some "r", some "c"⟩
    ⟨0, 0⟩ (by decide)).1 rfl).1 [65] (by decide)

/-- Claim C5: when both paths decode, `rename` returns ENOSPC and leaves
the database state untouched (no manager call) if the tags differ, returns
EROFS for the Database tag, and dispatches exactly one
rename_table/rename_row/rename_column manager call when the tags match and
are not Database. -/
theorem claim5_rename_tag_rules {σ : Type} (e : SqliteEngine σ) (s : σ)
    (p1 p2 : String) (o n : SqlitePath)
    (h1 : mdbfs_sqlite_path_from_string p1 = some o)
    (h2 : mdbfs_sqlite_path_from_string p2 = some n) :
    (o.type ≠ n.type → sqlite_rename e s p1 p2 = (-ENOSPC, s, [])) ∧
    (o.type = .database → n.type = .database →
      sqlite_rename e s p1 p2 = (-EROFS, s, [])) ∧
    (o.type = n.type → o.type ≠ .database →
      ∃ c, (sqlite_rename e s p1 p2).2.2 = [c]) := by
  refine ⟨fun hne => ?_, fun ho hn => ?_, fun heq hnd => ?_⟩
  · simp [sqlite_rename, h1, h2, hne]
  · simp [sqlite_rename, h1, h2, ho, hn]
  · cases ht : o.type with
    | database => exact absurd ht hnd
    | table =>
      simp [sqlite_rename, h1, h2, ← heq, ht]
    | row =>
      simp [sqlite_rename, h1, h2, ← heq, ht]
    | column =>
      simp [sqlite_rename, h1, h2, ← heq, ht]

/-- Witness for claim C5: renaming a table path to a row path yields ENOSPC
with untouched state and no manager call. -/
theorem claim5_rename_tag_rules_witness :
    sqlite_rename unitEngine () "/a" "/b/c" = (-ENOSPC, (), []) :=
  (claim5_rename_tag_rules unitEngine () "/a" "/b/c"
    ⟨.table, some "a", none, none⟩ ⟨.row, some "b", some "c", none⟩
    (by decide) (by decide)).1 (by decide)

/-- Claim C6 counterexample: reading a key-value path whose record does not
exist returns EINVAL, not the claimed ENOENT. -/
theorem claim6_read_missing_counterexample :
    (bdb_read emptyStore "/k" 4096 0).1 = -EINVAL ∧
    (bdb_read emptyStore "/k" 4096 0).1 ≠ -ENOENT := by
  decide

/-- Claim C6 as amended: in the key-value backend, `read` on a path whose
record does not exist (get_record_value returns null) returns EINVAL — the
key-value read maps a missing record to EINVAL instead of mirroring the
tabular ENOENT. -/
theorem claim6_read_missing_amended (store : BdbStore) (path k : String)
    (bufsize offset : Nat) (hk : key_from_path path = some k)
    (hmiss : mdbfs_backend_berkeleydb_get_record_value store k = none) :
    bdb_read store path bufsize offset = (-EINVAL, []) := by
  simp only [bdb_read, hk, hmiss]

/-- Witness for the amended claim C6 at the empty store and path "/x". -/
theorem claim6_read_missing_amended_witness :
    key_from_path "/x" = some "x" ∧
    mdbfs_backend_berkeleydb_get_record_value emptyStore "x" = none ∧
    bdb_read emptyStore "/x" 8 0 = (-EINVAL, []) :=
  ⟨by decide, rfl,
   claim6_read_missing_amended emptyStore "/x" "x" 8 0 (by decide) rfl⟩

/-- An engine open that fails while writing a (non-NULL) error handle to
the out-parameter — the documented behaviour of `sqlite3_open_v2` on
almost every failure, e.g. opening a nonexistent file read-write. -/
def failOpenEngine : String → Option Nat × Bool := fun _ => (some 7, false)

/-- Counterexample to claim C7: the claimed machine says `open()` stays
Closed on failure, but the sqlite source never resets `g_db` after a
failed `sqlite3_open_v2`, which writes a non-NULL handle on most failures.
Starting Closed, a failing open reports failure yet leaves the handle
non-NULL — the state ends Open, not Closed. -/
theorem claim7_open_failure_counterexample :
    (sqliteOpenDatabase (none : Option Nat) (some "db") failOpenEngine).2.1
      = false ∧
    (sqliteOpenDatabase (none : Option Nat) (some "db") failOpenEngine).1.isSome
      = true := by
  decide

/-- Claim C7 as amended: the Berkeley DB handle obeys the claimed two-state
machine exactly (Closed on failure included, since that source closes the
handle on `DB->open` failure).  The sqlite handle obeys it except on open
failure: with a path present, the final state is exactly the handle
`sqlite3_open_v2` wrote to `&g_db` — the connection on success (Open), but
also the engine-written error handle on failure, which is non-NULL on most
failures, so a failed open leaves the backend Open on a dud handle instead
of Closed.  In both backends the already-open warning fires exactly when
the previous state was Open (the previous handle having been dropped
before the engine call), `close` always ends Closed and warns exactly when
called while Closed, and the state is a single optional handle, so at most
one handle is held at any time. -/
theorem claim7_handle_state_machine_amended {H : Type} (g : Option H)
    (p : String) (eng : String → Option H × Bool) (createRes : Option H)
    (ok : Bool) :
    sqliteOpenDatabase g (some p) eng = ((eng p).1, (eng p).2, g.isSome) ∧
    sqliteCloseDatabase g = (none, g.isNone) ∧
    bdbOpenDatabase g (some p) createRes ok =
      ((if ok then createRes else none), createRes.isSome && ok, g.isSome) ∧
    bdbCloseDatabase g = (none, g.isNone) := by
  refine ⟨rfl, ?_, ?_, ?_⟩ <;>
    rcases g with _ | g0 <;> rcases createRes with _ | c0 <;> cases ok <;>
    simp [sqliteCloseDatabase, bdbOpenDatabase, bdbCloseDatabase]

/-- The attributes of each entry filled by the checked readdir loop come
from `getattr` on the readdir path argument. -/
theorem sqlite_fill_checked_attrs (db : SqliteDB) (path : String)
    (names : List String) (entry : String × Stat)
    (h : entry ∈ (sqlite_fill_checked db path names).2) :
    entry.2 = (sqlite_getattr db path ⟨0, 0⟩).2 := by
  induction names with
  | nil => simp [sqlite_fill_checked] at h
  | cons n rest ih =>
    simp only [sqlite_fill_checked] at h
    split at h
    · simp at h
    · rcases List.mem_cons.mp h with he | hm
      · rw [he]
      · exact ih hm

/-- The attributes of each entry filled by the unchecked readdir loop come
from `getattr` on the readdir path argument. -/
theorem sqlite_fill_unchecked_attrs (db : SqliteDB) (path : String)
    (names : List String) (entry : String × Stat)
    (h : entry ∈ sqlite_fill_unchecked db path names) :
    entry.2 = (sqlite_getattr db path ⟨0, 0⟩).2 := by
  induction names with
  | nil => simp [sqlite_fill_unchecked] at h
  | cons n rest ih =>
    simp only [sqlite_fill_unchecked] at h
    rcases List.mem_cons.mp h with he | hm
    · rw [he]
    · exact ih hm

/-- Claim C8: in the tabular readdir, every entry passed to the filler
carries the attributes obtained by calling `getattr` on the readdir path
argument itself (the parent directory), not on the child entry. -/
theorem claim8_readdir_parent_attrs (db : SqliteDB) (path : String)
    (offset : Nat) (entry : String × Stat)
    (h : entry ∈ (sqlite_readdir db path offset).2) :
    entry.2 = (sqlite_getattr db path ⟨0, 0⟩).2 := by
  rw [sqlite_readdir] at h
  split at h
  · simp at h
  · split at h
    · simp at h
    · split at h
      · simp at h
      · split at h
        · simp at h
        · exact sqlite_fill_unchecked_attrs db path _ entry h
      · split at h
        · simp at h
        · exact sqlite_fill_checked_attrs db path _ entry h
      · split at h
        · simp at h
        · exact sqlite_fill_checked_attrs db path _ entry h

/-- Witness for claim C8: listing the root of `db4` fills the table entry
`t` with the attributes of the root directory itself. -/
theorem claim8_readdir_parent_attrs_witness :
    ("t", (⟨dirMode, 0⟩ : Stat)) ∈ (sqlite_readdir db4 "/" 0).2 ∧
    (("t", (⟨dirMode, 0⟩ : Stat)) : String × Stat).2 =
      (sqlite_getattr db4 "/" ⟨0, 0⟩).2 :=
  ⟨by decide, claim8_readdir_parent_attrs db4 "/" 0 _ (by decide)⟩

/-- Claim C9: for a path that decodes to Database, Table or Row, `write`
at offset 0 returns EINTR and leaves the database state unchanged — the
write never checks the decoded tag, but `set_cell` rejects the call because
at least one of table, row, column is absent (NULL). -/
theorem claim9_write_nondir {σ : Type} (e : SqliteEngine σ) (s : σ)
    (path : String) (sp : SqlitePath) (buf : String) (bufsize : Nat)
    (h : mdbfs_sqlite_path_from_string path = some sp)
    (hnc : sp.type ≠ .column) :
    sqlite_write e s path buf bufsize 0 = (-EINTR, s) := by
  rcases decode_shape path sp h with h0 | ⟨t, h0⟩ | ⟨t, r, h0⟩ | ⟨t, r, c, h0⟩
  · subst h0
    simp [sqlite_write, h, mdbfs_backend_sqlite_set_cell]
  · subst h0
    simp [sqlite_write, h, mdbfs_backend_sqlite_set_cell]
  · subst h0
    simp [sqlite_write, h, mdbfs_backend_sqlite_set_cell]
  · subst h0
    exact absurd rfl hnc

/-- Witness for claim C9 at the table path "/t". -/
theorem claim9_write_nondir_witness :
    sqlite_write unitEngine () "/t" "x" 3 0 = (-EINTR, ()) :=
  claim9_write_nondir unitEngine () "/t" ⟨.table, some "t", none, none⟩ "x" 3
    (by decide) (by decide)

/-- Claim C10: in the key-value backend, `mknod` on a path whose key
already has a record succeeds and overwrites the record with the empty
value (`create_record` is an unconditional upsert of empty data), so a
subsequent `getattr` on the same path reports a regular file of size 0. -/
theorem claim10_mknod_upserts_empty (store : BdbStore) (path K : String)
    (v : List Nat) (st0 : Stat)
    (hk : key_from_path path = some K) (hne : K ≠ "")
    (hex : mdbfs_backend_berkeleydb_get_record_value store K = some v) :
    (bdb_mknod store path).1 = 0 ∧
    bdb_getattr (bdb_mknod store path).2 path st0 = (0, ⟨regFileMode, 0⟩) := by
  have hmk : bdb_mknod store path = (0, bdb_put store K []) := by
    simp [bdb_mknod, hk, mdbfs_backend_berkeleydb_create_record]
  refine ⟨by rw [hmk], ?_⟩
  rw [hmk]
  simp [bdb_getattr, hk, hne, mdbfs_backend_berkeleydb_get_record_value, bdb_put]

/-- Witness for claim C10: the store holding record k with two bytes; after
mknod on "/k" the record reads back as a size-0 regular file. -/
theorem claim10_mknod_upserts_empty_witness :
    (bdb_mknod store10 "/k").1 = 0 ∧
    bdb_getattr (bdb_mknod store10 "/k").2 "/k" ⟨0, 0⟩ = (0, ⟨regFileMode, 0⟩) :=
  claim10_mknod_upserts_empty store10 "/k" "k" [1, 2] ⟨0, 0⟩
    (by decide) (by decide) (by decide)

end Mdbfs
